import Mathlib

/-!
Verification of the conversational-dataset utilities
(`analyze_gujlish_dataset.py` and `jsonToCSV.py`).

Shallow embedding conventions:
* Python strings are modelled by Lean `String`; character-level operations
  work over the list of code points `codes s : List Nat`.
* Machine floats are modelled by `ℚ` (all ratio arithmetic in the scripts is
  exact division of small integers, so the rational model is faithful up to
  the floating tolerances the spec itself allows).
* Python dictionaries with possibly-missing keys are modelled by `Option`
  fields; a direct subscript `d["k"]` is a lookup that fails (KeyError) on a
  missing key, while `d.get("k", v)` is `Option.getD`.
* Fallible code returns `Except String`, the error message naming the
  missing key.
-/

namespace Gujlish

/-- Code points of a string, the model of a Python `str`. -/
def codes (s : String) : List Nat := s.data.map Char.toNat

/-- ASCII space classes used by Python's default `str.strip` / `str.split`:
space (32) and the control characters TAB..CR (9..13).  (Python also strips
Unicode spaces; the inputs analysed here are ASCII.) -/
def isSpaceCode (n : Nat) : Bool := decide (n = 32 ∨ (9 ≤ n ∧ n ≤ 13))

/-- The 32 characters of Python's `string.punctuation`:
codes 33..47, 58..64, 91..96 and 123..126. -/
def isPunctCode (n : Nat) : Bool :=
  decide ((33 ≤ n ∧ n ≤ 47) ∨ (58 ≤ n ∧ n ≤ 64) ∨ (91 ≤ n ∧ n ≤ 96) ∨ (123 ≤ n ∧ n ≤ 126))

/-- Uppercase ASCII letter: codes 65..90. -/
def isUpperCode (n : Nat) : Bool := decide (65 ≤ n ∧ n ≤ 90)

/-- ASCII letter, the character class `[a-zA-Z]` of the source regex. -/
def isLetterCode (n : Nat) : Bool := decide ((65 ≤ n ∧ n ≤ 90) ∨ (97 ≤ n ∧ n ≤ 122))

/-- Word character for the regex word boundary `\b`, restricted to ASCII:
letters, digits and underscore.  Python `\w` additionally counts every
non-ASCII Unicode letter and digit (e.g. é, code 233), so this model of the
word class — and hence `engScan`/`engWords` — is faithful to the program
only on ASCII strings; every general theorem about `engWords` below
therefore carries an explicit all-codes-below-128 hypothesis. -/
def isWordCode (n : Nat) : Bool :=
  isLetterCode n || decide (48 ≤ n ∧ n ≤ 57) || decide (n = 95)

/-- `str.lower` restricted to ASCII: maps codes 65..90 to 97..122. -/
def pyLower (n : Nat) : Nat := if 65 ≤ n ∧ n ≤ 90 then n + 32 else n

/-- `str.strip()`: drop leading and trailing whitespace. -/
def pyStrip (l : List Nat) : List Nat :=
  ((l.dropWhile isSpaceCode).reverse.dropWhile isSpaceCode).reverse

/-- `normalize_text` (analyze_gujlish_dataset.py lines 15-19):
`text.lower().strip()` followed by
`text.translate(str.maketrans("", "", string.punctuation))` — note that the
whitespace strip happens BEFORE punctuation removal. -/
def normalize_text (text : String) : List Nat :=
  (pyStrip ((codes text).map pyLower)).filter (fun n => !isPunctCode n)

/-- `are_sentences_identical` (lines 21-22): equality of normalized forms. -/
def are_sentences_identical (gujlish english : String) : Bool :=
  normalize_text gujlish == normalize_text english

/-- Count of maximal runs of characters satisfying `p`; `prev` records
whether the previous character satisfied `p`. -/
def countRuns (p : Nat → Bool) : Bool → List Nat → Nat
  | _, [] => 0
  | prev, n :: ns => (if p n && !prev then 1 else 0) + countRuns p (p n) ns

/-- `len(text.split())` (line 50): the number of maximal runs of
non-whitespace characters. -/
def wordCount (s : String) : Nat :=
  countRuns (fun n => !isSpaceCode n) false (codes s)

/-- Number of maximal runs of ASCII letters in a code list (each run counted
once, whatever its neighbours are). -/
def letterRuns (l : List Nat) : Nat := countRuns isLetterCode false l

/-- One step of scanning for `re.findall(r"\b[a-zA-Z]+\b", text)` (line 51).
The regex engine scans left to right; a match is a maximal run of ASCII
letters whose left neighbour is not a word character (else the opening `\b`
fails at the run's start and, both flanks being word characters, at every
interior position) and whose right neighbour is not a word character (else
the closing `\b` fails for the greedy run and backtracking inside the run
fails likewise).  `active` records being inside a run that opened at a valid
boundary, `prevW` whether the previous character was a word character. -/
def engScan (active prevW : Bool) : List Nat → Nat
  | [] => if active then 1 else 0
  | n :: ns =>
    if isLetterCode n then
      if active then engScan true true ns
      else if prevW then engScan false true ns
      else engScan true true ns
    else
      if active then
        if isWordCode n then engScan false true ns
        else 1 + engScan false false ns
      else engScan false (isWordCode n) ns

/-- `len(re.findall(r"\b[a-zA-Z]+\b", gujlish_text))` (line 51). -/
def engWords (s : String) : Nat := engScan false false (codes s)

/-- A conversation turn as found in the JSON document: a dictionary whose
keys `speaker`, `gujlish` (mixed text) and `english` (reference text) may be
missing. -/
structure TurnRecord where
  speaker : Option String
  gujlish : Option String
  english : Option String
  deriving DecidableEq

/-- A topic record of the JSON document: keys `topic` and `conversations`
may be missing. -/
structure TopicRecord where
  topic : Option String
  conversations : Option (List TurnRecord)
  deriving DecidableEq

/-- A Python dict subscript `d[key]`: raises KeyError on a missing key. -/
def dictGet (key : String) : Option α → Except String α
  | some v => .ok v
  | none => .error ("KeyError: " ++ key)

/-- The mutable locals of the loop of `analyze_conversations`
(lines 25-33): counters, the topic `Counter` (an insertion-ordered
association list) and the two ratio lists. -/
structure LoopState where
  total_sentences : Nat
  english_sentences : Nat
  gujlish_sentences : Nat
  identical_sentences : Nat
  topics : List (String × Nat)
  eng_ratios : List ℚ
  guj_ratios : List ℚ
  deriving DecidableEq

/-- The initial loop state: all counters zero, empty Counter and lists. -/
def initState : LoopState := ⟨0, 0, 0, 0, [], [], []⟩

/-- `Counter` increment `topics[t] += 1`: bump an existing key, else append
it with count 1 (insertion order preserved). -/
def counterAdd : List (String × Nat) → String → List (String × Nat)
  | [], t => [(t, 1)]
  | (k, v) :: rest, t =>
    if k = t then (k, v + 1) :: rest else (k, v) :: counterAdd rest t

/-- The body of the message loop (lines 38-55) once both text fields have
been fetched: bump `total_sentences`; classify and bump
`identical`+`english` or `gujlish`; compute the word counts of the raw mixed
text (`guj_words = total_words - eng_words` is Python int subtraction, so it
is `Int` and may be negative) and, when `total_words > 0`, append the ratio
pair. -/
def mkMsgState (st : LoopState) (gujlish_text english_text : String) : LoopState :=
  let st1 := { st with total_sentences := st.total_sentences + 1 }
  let st2 :=
    if are_sentences_identical gujlish_text english_text then
      { st1 with identical_sentences := st1.identical_sentences + 1,
                 english_sentences := st1.english_sentences + 1 }
    else
      { st1 with gujlish_sentences := st1.gujlish_sentences + 1 }
  let total_words := wordCount gujlish_text
  let eng_words := engWords gujlish_text
  let guj_words : Int := (total_words : Int) - (eng_words : Int)
  if 0 < total_words then
    { st2 with
      eng_ratios := st2.eng_ratios ++ [(eng_words : ℚ) / (total_words : ℚ)],
      guj_ratios := st2.guj_ratios ++ [(guj_words : ℚ) / (total_words : ℚ)] }
  else st2

/-- One message iteration: the direct subscripts `message["gujlish"]`
(line 39) and `message["english"]` (line 40) raise on a missing key. -/
def processMessage (st : LoopState) (message : TurnRecord) : Except String LoopState :=
  match message.gujlish with
  | none => .error "KeyError: gujlish"
  | some gujlish_text =>
    match message.english with
    | none => .error "KeyError: english"
    | some english_text => .ok (mkMsgState st gujlish_text english_text)

/-- The inner loop over `conversation["conversations"]` (lines 37-55). -/
def processMessages (st : LoopState) : List TurnRecord → Except String LoopState
  | [] => .ok st
  | m :: ms =>
    match processMessage st m with
    | .error e => .error e
    | .ok st1 => processMessages st1 ms

/-- One topic iteration (lines 35-55): `conversation["topic"]` and
`conversation["conversations"]` are direct subscripts; the topic counter is
bumped before the message loop runs. -/
def processTopic (st : LoopState) (conversation : TopicRecord) : Except String LoopState :=
  match conversation.topic with
  | none => .error "KeyError: topic"
  | some topic_name =>
    match conversation.conversations with
    | none => .error "KeyError: conversations"
    | some messages =>
      processMessages { st with topics := counterAdd st.topics topic_name } messages

/-- The outer loop over the data (line 35). -/
def processTopics (st : LoopState) : List TopicRecord → Except String LoopState
  | [] => .ok st
  | t :: ts =>
    match processTopic st t with
    | .error e => .error e
    | .ok st1 => processTopics st1 ts

/-- The statistics dictionary returned by `analyze_conversations`
(lines 60-70). -/
structure Stats where
  total_conversations : Nat
  total_sentences : Nat
  english_sentences : Nat
  gujlish_sentences : Nat
  identical_sentences : Nat
  topics : List (String × Nat)
  language_mix_stats : List (ℚ × ℚ)
  avg_eng_ratio : ℚ
  avg_guj_ratio : ℚ
  deriving DecidableEq

/-- `analyze_conversations` (lines 24-70).  The averages follow
`sum(rs) / len(rs) if rs else 0` (lines 57-58) and `language_mix_stats` is
`list(zip(eng_ratios, guj_ratios))` (line 67). -/
def analyze_conversations (data : List TopicRecord) : Except String Stats :=
  match processTopics initState data with
  | .error e => .error e
  | .ok st =>
    .ok
      { total_conversations := data.length
        total_sentences := st.total_sentences
        english_sentences := st.english_sentences
        gujlish_sentences := st.gujlish_sentences
        identical_sentences := st.identical_sentences
        topics := st.topics
        language_mix_stats := st.eng_ratios.zip st.guj_ratios
        avg_eng_ratio :=
          if st.eng_ratios = [] then 0
          else st.eng_ratios.sum / (st.eng_ratios.length : ℚ)
        avg_guj_ratio :=
          if st.guj_ratios = [] then 0
          else st.guj_ratios.sum / (st.guj_ratios.length : ℚ) }

/-- One row of the exported table (jsonToCSV.py lines 34-40): the dict
appended for each turn, keys in insertion order
`turn_id, topic, speaker, gujlish, english`. -/
structure Row where
  turn_id : Nat
  topic : String
  speaker : Option String
  gujlish : Option String
  english : Option String
  deriving DecidableEq

/-- Build the row dict for one turn (lines 33-40): the counter has already
been incremented to `id`; `speaker`/`gujlish`/`english` use `.get`, which
yields `None` (here `none`) when absent. -/
def mkRow (id : Nat) (topic_name : String) (m : TurnRecord) : Row :=
  ⟨id, topic_name, m.speaker, m.gujlish, m.english⟩

/-- The inner loop of `json_to_csv_pandas` (lines 32-41) over one topic's
conversations, threading `(turn_id_counter, all_conversation_turns)`. -/
def exportInner (topic_name : String) (acc : Nat × List Row)
    (ms : List TurnRecord) : Nat × List Row :=
  ms.foldl (fun a m => (a.1 + 1, a.2 ++ [mkRow (a.1 + 1) topic_name m])) acc

/-- The outer loop body (lines 28-41): `topic_data.get("topic",
"Unknown Topic")` and `topic_data.get("conversations", [])`. -/
def exportStep (acc : Nat × List Row) (topic_data : TopicRecord) : Nat × List Row :=
  exportInner (topic_data.topic.getD "Unknown Topic") acc
    (topic_data.conversations.getD [])

/-- `all_conversation_turns` after the loops of `json_to_csv_pandas`
(lines 25-41): counter starts at 0, list starts empty. -/
def all_conversation_turns (data : List TopicRecord) : List Row :=
  (data.foldl exportStep (0, [])).2

/-- The CSV header `df.to_csv` writes: the DataFrame's columns, i.e. the
row dicts' keys in insertion order (lines 34-40, 48, 52). -/
def csvHeader : String := "turn_id,topic,speaker,gujlish,english"

/-- The observable outcome of `json_to_csv_pandas`: either the "No
conversation data found" message with an early return and no file written
(lines 43-45), or a CSV file holding the header and one line per row
(lines 48-52). -/
inductive ExportOutcome where
  | noData
  | csv (header : String) (rows : List Row)
  deriving DecidableEq

/-- `json_to_csv_pandas` (lines 6-55), after a successful load of the JSON
document: flatten, return early when no turns were collected, otherwise
write the DataFrame as CSV. -/
def json_to_csv_pandas (data : List TopicRecord) : ExportOutcome :=
  if all_conversation_turns data = [] then .noData
  else .csv csvHeader (all_conversation_turns data)

/-- Total number of turns of the document (the length of the flattened
table, used to state the claims about the exporter). -/
def turnCount : List TopicRecord → Nat
  | [] => 0
  | t :: ts => (t.conversations.getD []).length + turnCount ts

/-- The non-`turn_id` fields of a row. -/
def rowFields (r : Row) : String × Option String × Option String × Option String :=
  (r.topic, r.speaker, r.gujlish, r.english)

/-- The flattened document as the claims describe it: for each topic in
order, for each turn in order, the topic name (defaulted) and the turn's
fields. -/
def flatTurns : List TopicRecord → List (String × Option String × Option String × Option String)
  | [] => []
  | t :: ts =>
    ((t.conversations.getD []).map fun m =>
      (t.topic.getD "Unknown Topic", m.speaker, m.gujlish, m.english)) ++ flatTurns ts

/-! ### Well-formedness of the input document

`analyze_conversations` subscripts the dictionaries directly, so it only
succeeds when every topic has its `topic` and `conversations` keys and every
turn has its `gujlish` and `english` keys. -/

/-- Both text fields of the turn are present. -/
def turnOK (m : TurnRecord) : Bool := m.gujlish.isSome && m.english.isSome

/-- The topic record has its `topic` and `conversations` keys, and every
turn has both text fields. -/
def topicOK (t : TopicRecord) : Bool :=
  t.topic.isSome &&
    (match t.conversations with
     | none => false
     | some ms => ms.all turnOK)

/-- Every topic record of the document is well-formed. -/
def docOK (data : List TopicRecord) : Bool := data.all topicOK

/-- The engine finished without a KeyError. -/
def analysisOK (r : Except String Stats) : Bool :=
  match r with
  | .ok _ => true
  | .error _ => false

/-- The counting invariant of the loop of the engine: `english + gujlish =
total` and `identical = english` (spec names: `reference_sentence_count +
mixed_sentence_count == total_sentences` and `identical_sentence_count ==
reference_sentence_count`). -/
def CountInv (st : LoopState) : Prop :=
  st.english_sentences + st.gujlish_sentences = st.total_sentences ∧
  st.identical_sentences = st.english_sentences

/-- The ratio-list invariant of the loop of the engine: the two ratio lists
stay aligned and every emitted pair sums to exactly 1. -/
def RatioInv (st : LoopState) : Prop :=
  st.eng_ratios.length = st.guj_ratios.length ∧
  ∀ p ∈ st.eng_ratios.zip st.guj_ratios, p.1 + p.2 = 1

/-- The rows generated for the turns of one topic when the counter stands
at `k` before the first of them. -/
def rowsOf (topic_name : String) : Nat → List TurnRecord → List Row
  | _, [] => []
  | k, m :: ms => mkRow (k + 1) topic_name m :: rowsOf topic_name (k + 1) ms

/-- The rows generated for a whole document when the counter stands at
`k`. -/
def docRows : Nat → List TopicRecord → List Row
  | _, [] => []
  | k, t :: ts =>
    rowsOf (t.topic.getD "Unknown Topic") k (t.conversations.getD []) ++
      docRows (k + (t.conversations.getD []).length) ts

/-! ### Helper lemmas about the loops of the engine -/

lemma processMessage_ok {st st' : LoopState} {m : TurnRecord}
    (h : processMessage st m = .ok st') :
    ∃ g e, m.gujlish = some g ∧ m.english = some e ∧ st' = mkMsgState st g e := by
  obtain ⟨sp, gj, en⟩ := m
  cases gj with
  | none => simp [processMessage] at h
  | some g =>
    cases en with
    | none => simp [processMessage] at h
    | some e =>
      simp only [processMessage] at h
      exact ⟨g, e, rfl, rfl, (Except.ok.inj h).symm⟩

/-- Any property preserved by the message-body update is an invariant of
the inner loop. -/
lemma processMessages_pres (P : LoopState → Prop)
    (hstep : ∀ st g e, P st → P (mkMsgState st g e)) :
    ∀ (ms : List TurnRecord) (st st' : LoopState),
      P st → processMessages st ms = .ok st' → P st' := by
  intro ms
  induction ms with
  | nil =>
    intro st st' hP h
    simp only [processMessages] at h
    exact (Except.ok.inj h) ▸ hP
  | cons m ms ih =>
    intro st st' hP h
    simp only [processMessages] at h
    cases hm : processMessage st m with
    | error e => rw [hm] at h; cases h
    | ok st1 =>
      rw [hm] at h
      obtain ⟨g, e, _, _, hst1⟩ := processMessage_ok hm
      exact ih st1 st' (hst1 ▸ hstep st g e hP) h

/-- Lift preservation through one topic iteration. -/
lemma processTopic_pres (P : LoopState → Prop)
    (hstep : ∀ st g e, P st → P (mkMsgState st g e))
    (htop : ∀ st t, P st → P { st with topics := counterAdd st.topics t })
    {st st1 : LoopState} {t : TopicRecord}
    (ht : processTopic st t = .ok st1) (hP : P st) : P st1 := by
  obtain ⟨tn, cv⟩ := t
  cases tn with
  | none => simp [processTopic] at ht
  | some topic_name =>
    cases cv with
    | none => simp [processTopic] at ht
    | some ms =>
      simp only [processTopic] at ht
      exact processMessages_pres P hstep ms _ _ (htop st topic_name hP) ht

/-- Any property preserved by the message body and by the topic-counter
bump is an invariant of the whole pass. -/
lemma processTopics_pres (P : LoopState → Prop)
    (hstep : ∀ st g e, P st → P (mkMsgState st g e))
    (htop : ∀ st t, P st → P { st with topics := counterAdd st.topics t }) :
    ∀ (ts : List TopicRecord) (st st' : LoopState),
      P st → processTopics st ts = .ok st' → P st' := by
  intro ts
  induction ts with
  | nil =>
    intro st st' hP h
    simp only [processTopics] at h
    exact (Except.ok.inj h) ▸ hP
  | cons t ts ih =>
    intro st st' hP h
    simp only [processTopics] at h
    cases ht : processTopic st t with
    | error e => rw [ht] at h; cases h
    | ok st1 =>
      rw [ht] at h
      exact ih st1 st' (processTopic_pres P hstep htop ht hP) h

/-- The inner loop succeeds when every turn carries both text fields. -/
lemma processMessages_total :
    ∀ (ms : List TurnRecord) (st : LoopState), ms.all turnOK = true →
      ∃ st', processMessages st ms = .ok st' := by
  intro ms
  induction ms with
  | nil => exact fun st _ => ⟨st, rfl⟩
  | cons m ms ih =>
    intro st hall
    rw [List.all_cons, Bool.and_eq_true] at hall
    have hm := hall.1
    rw [turnOK, Bool.and_eq_true] at hm
    obtain ⟨g, hg⟩ := Option.isSome_iff_exists.mp hm.1
    obtain ⟨e, he⟩ := Option.isSome_iff_exists.mp hm.2
    obtain ⟨st', h'⟩ := ih (mkMsgState st g e) hall.2
    refine ⟨st', ?_⟩
    simp only [processMessages, processMessage, hg, he, h']

/-- The whole pass succeeds on a well-formed document. -/
lemma processTopics_total :
    ∀ (ts : List TopicRecord) (st : LoopState), docOK ts = true →
      ∃ st', processTopics st ts = .ok st' := by
  intro ts
  induction ts with
  | nil => exact fun st _ => ⟨st, rfl⟩
  | cons t ts ih =>
    intro st hall
    rw [docOK, List.all_cons, Bool.and_eq_true] at hall
    obtain ⟨htop, hrest⟩ := hall
    rw [topicOK, Bool.and_eq_true] at htop
    obtain ⟨tn, htn⟩ := Option.isSome_iff_exists.mp htop.1
    have hconv := htop.2
    cases hc : t.conversations with
    | none => rw [hc] at hconv; cases hconv
    | some ms =>
      rw [hc] at hconv
      obtain ⟨st1, h1⟩ :=
        processMessages_total ms { st with topics := counterAdd st.topics tn } hconv
      obtain ⟨st', h'⟩ := ih st1 hrest
      refine ⟨st', ?_⟩
      simp only [processTopics, processTopic, htn, hc, h1, h']

/-! ### Claim C1 (error handling of missing fields) -/

/-- Claim C1 counterexample: the claim says a TurnRecord missing its text
fields is treated as empty strings and the engine never raises; but on a
document whose single turn has no `gujlish`/`english` keys the engine stops
with a KeyError (the source subscripts `message["gujlish"]` directly at
line 39). -/
theorem claim1_counterexample :
    analyze_conversations [⟨some "t", some [⟨none, none, none⟩]⟩] =
      .error "KeyError: gujlish" := rfl

/-- Claim C1, amended: the engine is total only over documents in which
every topic carries its `topic` and `conversations` keys and every turn
carries both text fields; on such documents `analyze_conversations`
returns a Statistics value and never raises. -/
theorem claim1_amended_total (data : List TopicRecord) (h : docOK data = true) :
    analysisOK (analyze_conversations data) = true := by
  obtain ⟨st, hst⟩ := processTopics_total data initState h
  simp [analyze_conversations, hst, analysisOK]

/-- Witness for C1's amended theorem at a concrete well-formed document. -/
theorem claim1_witness :
    docOK [⟨some "t", some [⟨some "A", some "Mane ek coffee joie",
        some "I want a coffee"⟩]⟩] = true ∧
    analysisOK (analyze_conversations [⟨some "t", some [⟨some "A",
        some "Mane ek coffee joie", some "I want a coffee"⟩]⟩]) = true :=
  ⟨rfl, claim1_amended_total _ rfl⟩

/-! ### Claim C2 (the text normalizer) -/

lemma pyStrip_subset {l : List Nat} {n : Nat} (h : n ∈ pyStrip l) : n ∈ l := by
  unfold pyStrip at h
  rw [List.mem_reverse] at h
  have h1 := (List.dropWhile_sublist isSpaceCode).subset h
  rw [List.mem_reverse] at h1
  exact (List.dropWhile_sublist isSpaceCode).subset h1

lemma pyLower_not_upper (m : Nat) : isUpperCode (pyLower m) = false := by
  unfold pyLower isUpperCode
  split_ifs with h <;> simp only [decide_eq_false_iff_not] <;> omega

/-- Claim C2 counterexample: the claim says the result of `normalize_text`
never has leading/trailing whitespace; but the source strips whitespace
BEFORE removing punctuation, so `"a !"` normalizes to `"a "`
(codes `[97, 32]`), which ends with the space character 32. -/
theorem claim2_counterexample :
    normalize_text "a !" = [97, 32] ∧
    (normalize_text "a !").getLast? = some 32 ∧ isSpaceCode 32 = true :=
  ⟨rfl, rfl, rfl⟩

/-- Claim C2, amended: the result of `normalize_text` contains no uppercase
ASCII letter and no ASCII punctuation character; it may however retain
leading/trailing whitespace uncovered by the punctuation removal, because
the source trims whitespace before stripping punctuation. -/
theorem claim2_amended_no_upper_no_punct (s : String) (n : Nat)
    (hn : n ∈ normalize_text s) :
    isUpperCode n = false ∧ isPunctCode n = false := by
  unfold normalize_text at hn
  have h1 := (List.mem_filter.mp hn).1
  have h2 := (List.mem_filter.mp hn).2
  constructor
  · obtain ⟨m, _, hm⟩ := List.mem_map.mp (pyStrip_subset h1)
    exact hm ▸ pyLower_not_upper m
  · simpa using h2

/-- Witness for C2's amended theorem: `normalize_text "A!b"` contains the
code 97 (`a`), which is neither uppercase nor punctuation. -/
theorem claim2_witness :
    97 ∈ normalize_text "A!b" ∧
    (isUpperCode 97 = false ∧ isPunctCode 97 = false) :=
  ⟨by decide, claim2_amended_no_upper_no_punct "A!b" 97 (by decide)⟩

/-! ### Claim C8 (empty document) -/

/-- Claim C8: on the empty document the engine returns all counts 0, an
empty topic frequency table, no ratio pairs and both averages exactly 0,
with no division-by-zero fault. -/
theorem claim8_empty_doc :
    analyze_conversations [] = .ok ⟨0, 0, 0, 0, 0, [], [], 0, 0⟩ := rfl

/-! ### Claim C9 (determinism) -/

/-- Claim C9: the engine is deterministic — two runs on the same input
yield identical Statistics.  In the embedding `analyze_conversations` is a
pure function (the source reads nothing but its argument and touches no
global state), so the two runs are definitionally equal. -/
theorem claim9_deterministic (data : List TopicRecord) :
    analyze_conversations data = analyze_conversations data := rfl

/-! ### Claim C5 (counting invariants) -/

lemma countInv_mkMsgState (st : LoopState) (g e : String) (h : CountInv st) :
    CountInv (mkMsgState st g e) := by
  obtain ⟨h1, h2⟩ := h
  simp only [mkMsgState, CountInv]
  split_ifs <;> simp <;> omega

/-- Claim C5: for every document accepted by the engine, the Statistics
satisfies `english_sentences + gujlish_sentences = total_sentences` (the
spec's `reference_sentence_count + mixed_sentence_count == total_sentences`)
and `identical_sentences = english_sentences` (`identical_sentence_count ==
reference_sentence_count`). -/
theorem claim5_count_invariants (data : List TopicRecord) (s : Stats)
    (h : analyze_conversations data = .ok s) :
    s.english_sentences + s.gujlish_sentences = s.total_sentences ∧
    s.identical_sentences = s.english_sentences := by
  unfold analyze_conversations at h
  cases hp : processTopics initState data with
  | error e => rw [hp] at h; cases h
  | ok st =>
    rw [hp] at h
    have hinv : CountInv st :=
      processTopics_pres CountInv countInv_mkMsgState
        (fun st t hP => by simpa [CountInv] using hP)
        data initState st ⟨rfl, rfl⟩ hp
    have hs := Except.ok.inj h
    subst hs
    exact ⟨hinv.1, hinv.2⟩

/-- Witness for C5 at a concrete document with one identical turn (the
resulting counts are `total = 1`, `english = identical = 1`,
`gujlish = 0`). -/
theorem claim5_witness : (1 : Nat) + 0 = 1 ∧ (1 : Nat) = 1 :=
  claim5_count_invariants [⟨some "t", some [⟨none, some "", some ""⟩]⟩]
    ⟨1, 1, 1, 0, 1, [("t", 1)], [], 0, 0⟩ rfl

/-! ### Claim C3 (ratio pairs) -/

lemma mkMsgState_eng_ratios (st : LoopState) (g e : String) :
    (mkMsgState st g e).eng_ratios =
      if 0 < wordCount g then
        st.eng_ratios ++ [((engWords g : Nat) : ℚ) / ((wordCount g : Nat) : ℚ)]
      else st.eng_ratios := by
  simp only [mkMsgState]
  split_ifs <;> rfl

lemma mkMsgState_guj_ratios (st : LoopState) (g e : String) :
    (mkMsgState st g e).guj_ratios =
      if 0 < wordCount g then
        st.guj_ratios ++
          [(((wordCount g : Int) - (engWords g : Int) : Int) : ℚ) /
            ((wordCount g : Nat) : ℚ)]
      else st.guj_ratios := by
  simp only [mkMsgState]
  split_ifs <;> rfl

lemma ratioInv_mkMsgState (st : LoopState) (g e : String) (h : RatioInv st) :
    RatioInv (mkMsgState st g e) := by
  obtain ⟨hlen, hsum⟩ := h
  unfold RatioInv
  rw [mkMsgState_eng_ratios, mkMsgState_guj_ratios]
  split_ifs with htot
  · refine ⟨by simp [hlen], ?_⟩
    intro p hp
    rw [List.zip_append hlen] at hp
    rcases List.mem_append.mp hp with hold | hnew
    · exact hsum p hold
    · have ht : ((wordCount g : ℚ)) ≠ 0 :=
        Nat.cast_ne_zero.mpr (Nat.pos_iff_ne_zero.mp htot)
      simp only [List.zip_cons_cons, List.zip_nil_left, List.mem_singleton] at hnew
      subst hnew
      dsimp only
      rw [div_add_div_same]
      push_cast
      have h2 : (engWords g : ℚ) + ((wordCount g : ℚ) - (engWords g : ℚ)) =
          (wordCount g : ℚ) := by ring
      rw [h2]
      exact div_self ht
  · exact ⟨hlen, hsum⟩

/-- Claim C3 counterexample: the claim says both components of every
emitted ratio pair lie in [0,1]; but for the turn whose mixed text is
`"abc,def"` (one whitespace token containing two letter runs) the engine
emits the pair (2, -1): `english_ratio = 2 > 1` and `other_ratio = -1 < 0`. -/
theorem claim3_counterexample :
    analyze_conversations [⟨some "t", some [⟨none, some "abc,def", some "x"⟩]⟩] =
      .ok ⟨1, 1, 0, 1, 0, [("t", 1)], [(2, -1)], 2, -1⟩ ∧
    ¬ ((2 : ℚ) ≤ 1) ∧ ¬ ((0 : ℚ) ≤ -1) := by
  refine ⟨?_, by norm_num, by norm_num⟩
  have h :
      processTopics initState [⟨some "t", some [⟨none, some "abc,def", some "x"⟩]⟩] =
      .ok ⟨1, 0, 1, 0, [("t", 1)],
        [((2 : Nat) : ℚ) / ((1 : Nat) : ℚ)],
        [((((1 : Nat) : Int) - ((2 : Nat) : Int) : Int) : ℚ) / ((1 : Nat) : ℚ)]⟩ := rfl
  simp only [analyze_conversations, h]
  norm_num

/-- Claim C3, amended: every emitted ratio pair sums to exactly 1 (hence
within the claimed 1e-9 tolerance); the components need not lie in [0,1],
because a single whitespace token may contain several ASCII-letter runs,
making `english_ratio > 1` and `other_ratio < 0`. -/
theorem claim3_amended_ratio_sum (data : List TopicRecord) (s : Stats)
    (p : ℚ × ℚ) (h : analyze_conversations data = .ok s)
    (hp : p ∈ s.language_mix_stats) :
    p.1 + p.2 = 1 ∧ |p.1 + p.2 - 1| ≤ 1 / 1000000000 := by
  unfold analyze_conversations at h
  cases hq : processTopics initState data with
  | error e => rw [hq] at h; cases h
  | ok st =>
    rw [hq] at h
    have hinv : RatioInv st :=
      processTopics_pres RatioInv ratioInv_mkMsgState
        (fun st t hP => by simpa [RatioInv] using hP)
        data initState st ⟨rfl, by simp [initState]⟩ hq
    have hs := Except.ok.inj h
    subst hs
    have h1 : p.1 + p.2 = 1 := hinv.2 p hp
    exact ⟨h1, by rw [h1]; norm_num⟩

/-- Witness for C3 at a concrete document with one one-word turn: the
emitted pair is (1/1, (1-1)/1) and sums to 1. -/
theorem claim3_witness :
    ((((1 : Nat) : ℚ) / ((1 : Nat) : ℚ)) +
      (((((1 : Nat) : Int) - ((1 : Nat) : Int) : Int) : ℚ) / ((1 : Nat) : ℚ)) = 1) ∧
    |(((1 : Nat) : ℚ) / ((1 : Nat) : ℚ)) +
      (((((1 : Nat) : Int) - ((1 : Nat) : Int) : Int) : ℚ) / ((1 : Nat) : ℚ)) - 1| ≤
      1 / 1000000000 :=
  claim3_amended_ratio_sum [⟨some "t", some [⟨none, some "hi", some "hi"⟩]⟩]
    ⟨1, 1, 1, 0, 1, [("t", 1)],
      [(((1 : Nat) : ℚ) / ((1 : Nat) : ℚ),
        ((((1 : Nat) : Int) - ((1 : Nat) : Int) : Int) : ℚ) / ((1 : Nat) : ℚ))],
      List.sum [((1 : Nat) : ℚ) / ((1 : Nat) : ℚ)] / ((1 : Nat) : ℚ),
      List.sum [((((1 : Nat) : Int) - ((1 : Nat) : Int) : Int) : ℚ) / ((1 : Nat) : ℚ)] /
        ((1 : Nat) : ℚ)⟩
    (((1 : Nat) : ℚ) / ((1 : Nat) : ℚ),
      ((((1 : Nat) : Int) - ((1 : Nat) : Int) : Int) : ℚ) / ((1 : Nat) : ℚ))
    rfl (by simp)

/-! ### Claim C4 (the "Mane ek coffee joie" turn) -/

/-- Claim C4 counterexample: the claim says the turn
`{gujlish: "Mane ek coffee joie", english: "I want a coffee"}` yields the
ratio pair (0.25, 0.75); but all four whitespace tokens of the mixed text
are ASCII-letter runs, so the engine emits (1, 0), and 1 ≠ 1/4. -/
theorem claim4_counterexample :
    analyze_conversations
      [⟨some "topic", some [⟨some "A", some "Mane ek coffee joie",
        some "I want a coffee"⟩]⟩] =
      .ok ⟨1, 1, 0, 1, 0, [("topic", 1)], [(1, 0)], 1, 0⟩ ∧
    ¬ ((1 : ℚ) = 1 / 4 ∧ (0 : ℚ) = 3 / 4) := by
  refine ⟨?_, by norm_num⟩
  have h :
      processTopics initState
        [⟨some "topic", some [⟨some "A", some "Mane ek coffee joie",
          some "I want a coffee"⟩]⟩] =
      .ok ⟨1, 0, 1, 0, [("topic", 1)],
        [((4 : Nat) : ℚ) / ((4 : Nat) : ℚ)],
        [((((4 : Nat) : Int) - ((4 : Nat) : Int) : Int) : ℚ) / ((4 : Nat) : ℚ)]⟩ := rfl
  simp only [analyze_conversations, h]
  norm_num

/-- Claim C4, amended: the classifier returns Distinct for this turn
(normalized forms differ, so `gujlish_sentences` is incremented), the raw
token count is 4 and all 4 tokens are ASCII-letter runs, so the emitted
ratio pair is (1, 0) — not (0.25, 0.75). -/
theorem claim4_amended_concrete :
    are_sentences_identical "Mane ek coffee joie" "I want a coffee" = false ∧
    wordCount "Mane ek coffee joie" = 4 ∧
    engWords "Mane ek coffee joie" = 4 ∧
    analyze_conversations
      [⟨some "topic", some [⟨some "A", some "Mane ek coffee joie",
        some "I want a coffee"⟩]⟩] =
      .ok ⟨1, 1, 0, 1, 0, [("topic", 1)], [(1, 0)], 1, 0⟩ := by
  refine ⟨rfl, rfl, rfl, ?_⟩
  have h :
      processTopics initState
        [⟨some "topic", some [⟨some "A", some "Mane ek coffee joie",
          some "I want a coffee"⟩]⟩] =
      .ok ⟨1, 0, 1, 0, [("topic", 1)],
        [((4 : Nat) : ℚ) / ((4 : Nat) : ℚ)],
        [((((4 : Nat) : Int) - ((4 : Nat) : Int) : Int) : ℚ) / ((4 : Nat) : ℚ)]⟩ := rfl
  simp only [analyze_conversations, h]
  norm_num

/-! ### Claim C6 (English-word counting) -/

/-- On lists free of non-letter word characters, the regex scan counts
exactly the maximal letter runs: the scan counts a run when it closes,
`countRuns` when it opens, so a run in progress (`b = true`) is the one
run not yet counted by the scan. -/
lemma engScan_eq_countRuns :
    ∀ (l : List Nat) (b : Bool), (∀ n ∈ l, isWordCode n = isLetterCode n) →
      engScan b b l = countRuns isLetterCode b l + (if b then 1 else 0) := by
  intro l
  induction l with
  | nil => intro b _; cases b <;> rfl
  | cons n ns ih =>
    intro b h
    have hn := h n (List.mem_cons_self n ns)
    have hns : ∀ m ∈ ns, isWordCode m = isLetterCode m :=
      fun m hm => h m (List.mem_cons_of_mem n hm)
    by_cases hl : isLetterCode n = true
    · cases b with
      | true => simpa [engScan, countRuns, hl] using ih true hns
      | false =>
        have hrec := ih true hns
        simp only [if_pos] at hrec
        simp [engScan, countRuns, hl]
        omega
    · have hl' : isLetterCode n = false := by simpa using hl
      rw [hl'] at hn
      cases b with
      | true =>
        have hrec := ih false hns
        simp only [Bool.false_eq_true, if_false] at hrec
        simp [engScan, countRuns, hl', hn]
        omega
      | false =>
        have hrec := ih false hns
        simp only [Bool.false_eq_true, if_false] at hrec
        simp [engScan, countRuns, hl', hn]
        omega

/-- Claim C6 counterexample: the claim says every maximal run of ASCII
letters counts as one English word regardless of adjacent characters; but
in `"abc1"` the single maximal run `abc` is followed by a digit (a word
character), the regex word boundary fails, and the engine counts 0. -/
theorem claim6_counterexample :
    engWords "abc1" = 0 ∧ letterRuns (codes "abc1") = 1 ∧
    engWords "abc1" ≠ letterRuns (codes "abc1") :=
  ⟨rfl, rfl, by decide⟩

/-- Claim C6, amended: for ASCII strings (every code below 128, where the
embedded word class coincides with Python `\w`) containing no non-letter
word character (ASCII digit or underscore), the English-word count equals
the number of maximal contiguous runs of ASCII letters.  A letter run
adjacent to a word character is not counted, so the unrestricted
"regardless of adjacent characters" claim fails.  The ASCII bound keeps the
statement within the inputs on which `engWords` models `re.findall`
faithfully: Python also treats non-ASCII letters and digits as word
characters. -/
theorem claim6_amended_runs (s : String)
    (_hascii : ∀ n ∈ codes s, n < 128)
    (h : ∀ n ∈ codes s, isWordCode n = isLetterCode n) :
    engWords s = letterRuns (codes s) := by
  simpa [engWords, letterRuns] using engScan_eq_countRuns (codes s) false h

/-- Witness for C6's amended theorem at the all-letters-and-spaces ASCII
string `"Mane ek coffee joie"` (4 runs, 4 counted words). -/
theorem claim6_witness :
    engWords "Mane ek coffee joie" = letterRuns (codes "Mane ek coffee joie") :=
  claim6_amended_runs "Mane ek coffee joie" (by decide) (by decide)

/-! ### Claims C7 and C10 (the tabular exporter) -/

lemma exportInner_eq (topic_name : String) :
    ∀ (ms : List TurnRecord) (k : Nat) (rows : List Row),
      exportInner topic_name (k, rows) ms =
        (k + ms.length, rows ++ rowsOf topic_name k ms) := by
  intro ms
  induction ms with
  | nil => intro k rows; simp [exportInner, rowsOf]
  | cons m ms ih =>
    intro k rows
    have step : exportInner topic_name (k, rows) (m :: ms) =
        exportInner topic_name (k + 1, rows ++ [mkRow (k + 1) topic_name m]) ms := rfl
    rw [step, ih]
    refine Prod.ext ?_ ?_ <;> simp [rowsOf, List.append_assoc]
    omega

lemma foldl_exportStep_eq :
    ∀ (data : List TopicRecord) (k : Nat) (rows : List Row),
      data.foldl exportStep (k, rows) = (k + turnCount data, rows ++ docRows k data) := by
  intro data
  induction data with
  | nil => intro k rows; simp [turnCount, docRows]
  | cons t ts ih =>
    intro k rows
    rw [List.foldl_cons]
    have step : exportStep (k, rows) t =
        (k + (t.conversations.getD []).length,
          rows ++ rowsOf (t.topic.getD "Unknown Topic") k (t.conversations.getD [])) :=
      exportInner_eq _ _ _ _
    rw [step, ih]
    refine Prod.ext ?_ ?_ <;> simp [docRows, turnCount, List.append_assoc]
    omega

lemma all_conversation_turns_eq (data : List TopicRecord) :
    all_conversation_turns data = docRows 0 data := by
  unfold all_conversation_turns
  rw [foldl_exportStep_eq]
  simp

lemma range'_append_one :
    ∀ (a s b : Nat), List.range' s a ++ List.range' (s + a) b = List.range' s (a + b) := by
  intro a
  induction a with
  | zero => intro s b; simp
  | succ a ih =>
    intro s b
    have h1 : a + 1 + b = (a + b) + 1 := by omega
    rw [h1, List.range'_succ, List.range'_succ, List.cons_append]
    have h2 : s + (a + 1) = (s + 1) + a := by omega
    rw [h2, ih (s + 1) b]

lemma rowsOf_map_turn_id (topic_name : String) :
    ∀ (ms : List TurnRecord) (k : Nat),
      (rowsOf topic_name k ms).map Row.turn_id = List.range' (k + 1) ms.length := by
  intro ms
  induction ms with
  | nil => intro k; simp [rowsOf]
  | cons m ms ih =>
    intro k
    simp only [List.length_cons]
    rw [List.range'_succ]
    simp [rowsOf, mkRow, ih (k + 1)]

lemma docRows_map_turn_id :
    ∀ (data : List TopicRecord) (k : Nat),
      (docRows k data).map Row.turn_id = List.range' (k + 1) (turnCount data) := by
  intro data
  induction data with
  | nil => intro k; simp [docRows, turnCount]
  | cons t ts ih =>
    intro k
    simp only [docRows, turnCount, List.map_append]
    rw [rowsOf_map_turn_id, ih]
    have : (k + (t.conversations.getD []).length) + 1 =
        (k + 1) + (t.conversations.getD []).length := by omega
    rw [this, range'_append_one]

lemma rowsOf_map_fields (topic_name : String) :
    ∀ (ms : List TurnRecord) (k : Nat),
      (rowsOf topic_name k ms).map rowFields =
        ms.map (fun m => (topic_name, m.speaker, m.gujlish, m.english)) := by
  intro ms
  induction ms with
  | nil => intro k; simp [rowsOf]
  | cons m ms ih =>
    intro k
    simp [rowsOf, mkRow, rowFields, ih (k + 1)]

lemma docRows_map_fields :
    ∀ (data : List TopicRecord) (k : Nat),
      (docRows k data).map rowFields = flatTurns data := by
  intro data
  induction data with
  | nil => intro k; simp [docRows, flatTurns]
  | cons t ts ih =>
    intro k
    simp only [docRows, flatTurns, List.map_append]
    rw [rowsOf_map_fields, ih]

/-- Claim C7: the exporter produces one row per turn in input order — the
non-id fields of the rows are exactly the flattened document — with the header
`turn_id,topic,speaker,gujlish,english`, and `turn_id` is a 1-based counter
over the whole document: the k-th row carries id k. -/
theorem claim7_export_rows (data : List TopicRecord) :
    (all_conversation_turns data).map Row.turn_id =
      List.range' 1 (turnCount data) ∧
    (all_conversation_turns data).map rowFields = flatTurns data ∧
    csvHeader = "turn_id,topic,speaker,gujlish,english" := by
  rw [all_conversation_turns_eq]
  exact ⟨by simpa using docRows_map_turn_id data 0, docRows_map_fields data 0, rfl⟩

/-- Claim C10: when the document has no turns at all, the exporter reports
"no data" and returns before writing any file. -/
theorem claim10_no_rows_no_file (data : List TopicRecord)
    (h : turnCount data = 0) : json_to_csv_pandas data = .noData := by
  have hlen : (all_conversation_turns data).length = turnCount data := by
    have hmap := congrArg List.length (docRows_map_turn_id data 0)
    rw [List.length_map, List.length_range'] at hmap
    rw [all_conversation_turns_eq]
    exact hmap
  have hnil : all_conversation_turns data = [] :=
    List.length_eq_zero.mp (by rw [hlen, h])
  simp [json_to_csv_pandas, hnil]

/-- Witness for C10 at a document whose only topic has an empty
conversation list. -/
theorem claim10_witness :
    turnCount [⟨some "t", some []⟩] = 0 ∧
    json_to_csv_pandas [⟨some "t", some []⟩] = .noData :=
  ⟨rfl, claim10_no_rows_no_file _ rfl⟩

end Gujlish
